import Mathlib

/-!
Verification of the FLAC metadata-block core (package meta, file meta.go).

The embedding models the byte stream explicitly: a reader is the full
underlying data together with a cursor position and a flag saying whether
the backing store supports random positioning (implements io.Seeker).
Machine integers of the source (uint8 block types, int lengths bounded by
the 24-bit field) are represented as Nat.
-/

/-- A byte stream handle: the full underlying data, the current cursor
position, and whether the backing store supports random positioning
(whether the dynamic value also implements io.Seeker). The bytes still
available for reading are the ones from position pos on. -/
structure ByteReader where
  data : List Nat
  pos : Nat
  seekable : Bool
deriving Repr, DecidableEq

/-- Reading up to p bytes from a reader: delivers the next p available
bytes (fewer at end of stream) and advances the cursor by the number of
bytes actually delivered. -/
def ByteReader.read (s : ByteReader) (p : Nat) : List Nat × ByteReader :=
  let out := (s.data.drop s.pos).take p
  (out, { s with pos := s.pos + out.length })

/-- Errors of the meta package core, as an inductive: extractor or stream
failures (io errors, including the EOF of a short read), the format error
for block type 127, the defensive unsupported-type dispatch error, and an
error raised by a delegated body decoder. -/
inductive MetaError where
  | ioError
  | invalidBlockType
  | unsupportedType (code : Nat)
  | delegateError
deriving Repr, DecidableEq

/-- Model of the io.Seeker contract for a relative seek from the current
position with a nonnegative offset: the cursor moves forward by the offset.
Per the io.Seeker contract only a seek to a negative position is an error,
and a forward seek past the end of the data succeeds (subsequent reads
simply see end of stream); with a nonnegative offset the seek therefore
always completes. -/
def ByteReader.seekCur (s : ByteReader) (off : Nat) : Except MetaError ByteReader :=
  Except.ok { s with pos := s.pos + off }

/-- Big-endian value of a byte list (each entry reduced to a byte): the
MSB-first packed bit string read as one natural number. -/
def bytesValue (bs : List Nat) : Nat :=
  bs.foldl (fun a b => a * 256 + b % 256) 0

/-- Splitting a packed value into fields of the given bit widths, MSB
first: the first field is the top w bits, the rest are split off the
remainder. -/
def splitFields : List Nat → Nat → List Nat
  | [], _ => []
  | w :: ws, v => v / 2 ^ ws.sum % 2 ^ w :: splitFields ws (v % 2 ^ ws.sum)

/-- Modelled from the spec: the external bit-field extractor contract
(github.com/eaburns/bit, spec section 4.1). Given an ordered list of bit
widths it reads whole bytes covering the requested bits from the stream,
decodes one unsigned integer per width MSB-first with fields allowed to
span byte boundaries, and fails with an io error if the stream ends before
all requested bits are available. For the widths used here ([1, 7, 24],
32 bits) exactly 4 bytes are consumed. -/
def readFields (widths : List Nat) (s : ByteReader) : Option (List Nat × ByteReader) :=
  let nbytes := (widths.sum + 7) / 8
  if (s.data.drop s.pos).length < nbytes then none
  else some (splitFields widths (bytesValue ((s.data.drop s.pos).take nbytes)),
             { s with pos := s.pos + nbytes })

/-- Block types are uint8 values in the source; the embedding uses Nat. -/
abbrev BlockType := Nat

def TypeStreamInfo : BlockType := 1 <<< 0

def TypePadding : BlockType := 1 <<< 1

def TypeApplication : BlockType := 1 <<< 2

def TypeSeekTable : BlockType := 1 <<< 3

def TypeVorbisComment : BlockType := 1 <<< 4

def TypeCueSheet : BlockType := 1 <<< 5

def TypePicture : BlockType := 1 <<< 6

def TypeReserved : BlockType := 1 <<< 7

/-- TypeAll is a bitmask of all block types, except padding. -/
def TypeAll : BlockType :=
  TypeStreamInfo ||| TypeApplication ||| TypeSeekTable ||| TypeVorbisComment |||
    TypeCueSheet ||| TypePicture ||| TypeReserved

/-- TypeAllStrict is a bitmask of all block types, including padding but
excluding reserved. -/
def TypeAllStrict : BlockType :=
  TypeStreamInfo ||| TypePadding ||| TypeApplication ||| TypeSeekTable |||
    TypeVorbisComment ||| TypeCueSheet ||| TypePicture

/-- The blockTypeName map from BlockType to name, as a total lookup
returning none for keys not in the map. -/
def blockTypeName (t : BlockType) : Option String :=
  if t = TypeStreamInfo then some "stream info"
  else if t = TypePadding then some "padding"
  else if t = TypeApplication then some "application"
  else if t = TypeSeekTable then some "seek table"
  else if t = TypeVorbisComment then some "vorbis comment"
  else if t = TypeCueSheet then some "cue sheet"
  else if t = TypePicture then some "picture"
  else none

/-- BlockType.String: the map lookup with the fmt.Sprintf fallback naming
the numeric value. -/
def BlockType.String (t : BlockType) : String :=
  match blockTypeName t with
  | some s => s
  | none => "unknown block type " ++ toString t

/-- A BlockHeader contains type and length information about a metadata
block. -/
structure BlockHeader where
  IsLast : Bool
  BlockType : Nat
  Length : Nat
deriving Repr, DecidableEq

/-- ParseBlockHeader: reads fields of widths [1, 7, 24] through the
extractor, maps the 7-bit type code through the switch of the source
(0-6 to the declared types, 7-126 to reserved with a logged diagnostic,
127 to a format error) and assembles the header. The log.Printf side
effect of the reserved branch is modelled as the returned optional
diagnostic carrying the numeric code. -/
def ParseBlockHeader (s : ByteReader) :
    Except MetaError (BlockHeader × Option Nat × ByteReader) :=
  match readFields [1, 7, 24] s with
  | none => Except.error MetaError.ioError
  | some (fields, s2) =>
    let isLast := decide (fields.getD 0 0 ≠ 0)
    let blockType := fields.getD 1 0
    let length := fields.getD 2 0
    if blockType = 0 then
      Except.ok ({ IsLast := isLast, BlockType := TypeStreamInfo, Length := length }, none, s2)
    else if blockType = 1 then
      Except.ok ({ IsLast := isLast, BlockType := TypePadding, Length := length }, none, s2)
    else if blockType = 2 then
      Except.ok ({ IsLast := isLast, BlockType := TypeApplication, Length := length }, none, s2)
    else if blockType = 3 then
      Except.ok ({ IsLast := isLast, BlockType := TypeSeekTable, Length := length }, none, s2)
    else if blockType = 4 then
      Except.ok ({ IsLast := isLast, BlockType := TypeVorbisComment, Length := length }, none, s2)
    else if blockType = 5 then
      Except.ok ({ IsLast := isLast, BlockType := TypeCueSheet, Length := length }, none, s2)
    else if blockType = 6 then
      Except.ok ({ IsLast := isLast, BlockType := TypePicture, Length := length }, none, s2)
    else if 7 ≤ blockType ∧ blockType ≤ 126 then
      Except.ok ({ IsLast := isLast, BlockType := TypeReserved, Length := length },
                 some blockType, s2)
    else
      Except.error MetaError.invalidBlockType

/-- The table mapping of the spec from a known 7-bit type code (0-6) to
the BlockType value, used to state the round-trip claim. -/
def blockTypeOfCode : Nat → BlockType
  | 0 => TypeStreamInfo
  | 1 => TypePadding
  | 2 => TypeApplication
  | 3 => TypeSeekTable
  | 4 => TypeVorbisComment
  | 5 => TypeCueSheet
  | _ => TypePicture

/-- Typed result of a metadata block body, one constructor per body shape
the source can store in Block.Body. The external body decoders are out of
scope, so the payload is kept as the raw bytes the decoder consumed. -/
inductive BlockBody where
  | streamInfo (data : List Nat)
  | application (data : List Nat)
  | seekTable (data : List Nat)
  | vorbisComment (data : List Nat)
  | cueSheet (data : List Nat)
  | picture (data : List Nat)
  | rawBytes (data : List Nat)
deriving Repr, DecidableEq

/-- A Block is a metadata block, consisting of the underlying reader of
the block, the block header, and the block body (none until parsed;
the padding branch of Parse retains nothing). -/
structure Block where
  r : ByteReader
  Header : BlockHeader
  Body : Option BlockBody
deriving Repr, DecidableEq

/-- Model of io.LimitReader: a view of an underlying reader bounded to at
most n further bytes. A read request is capped to the remaining allowance
before being forwarded, so bytes past the bound can never be delivered;
once the allowance is exhausted a read delivers nothing (end of view). -/
structure LimitReader where
  n : Nat
  r : ByteReader
deriving Repr, DecidableEq

/-- One read through the bounded view: the request is capped to the
remaining allowance, forwarded to the underlying reader, and the allowance
decreases by the number of bytes actually delivered. -/
def LimitReader.read (lr : LimitReader) (p : Nat) : List Nat × LimitReader :=
  let res := lr.r.read (min p lr.n)
  (res.1, { n := lr.n - res.1.length, r := res.2 })

/-- Running a sequence of read requests through a bounded view, collecting
every byte delivered. -/
def runReads (lr : LimitReader) : List Nat → List Nat × LimitReader
  | [] => ([], lr)
  | p :: ps =>
    let res := lr.read p
    let rest := runReads res.2 ps
    (res.1 ++ rest.1, rest.2)

/-- Model of ioutil.ReadAll on a bounded view over a finite stream: one
read of the full remaining allowance delivers everything the view still
permits. -/
def readAll (lr : LimitReader) : List Nat × LimitReader :=
  lr.read lr.n

/-- Behaviour of a delegated external body decoder (ParseStreamInfo,
VerifyPadding, ParseApplication, ...): the sequence of read sizes it
issues against its bounded view, and whether it reports an error as a
function of the bytes it received. The decoders themselves are external
collaborators out of scope of the spec; any concrete decoder exhibits
some behaviour of this shape. -/
structure DelegateBehavior where
  reqs : List Nat
  fails : List Nat → Bool

/-- The branch of the dispatch switch of Block.Parse selected by a block
type value. -/
inductive ParseBranch where
  | streamInfo
  | padding
  | application
  | seekTable
  | vorbisComment
  | cueSheet
  | picture
  | reserved
  | unsupported
deriving Repr, DecidableEq

/-- The dispatch switch of Block.Parse on Header.BlockType: one case per
declared type, everything else falling to the default (unsupported)
branch. -/
def parseDispatch (t : BlockType) : ParseBranch :=
  if t = TypeStreamInfo then ParseBranch.streamInfo
  else if t = TypePadding then ParseBranch.padding
  else if t = TypeApplication then ParseBranch.application
  else if t = TypeSeekTable then ParseBranch.seekTable
  else if t = TypeVorbisComment then ParseBranch.vorbisComment
  else if t = TypeCueSheet then ParseBranch.cueSheet
  else if t = TypePicture then ParseBranch.picture
  else if t = TypeReserved then ParseBranch.reserved
  else ParseBranch.unsupported

/-- The body value stored by a successful Parse for a given branch: the
delegated decoders return a typed body built from the bytes they read, the
padding verifier retains nothing (Body stays none), and the unsupported
branch never stores a body (Parse errors before reaching this point). -/
def mkBody : ParseBranch → List Nat → Option BlockBody
  | ParseBranch.streamInfo, bs => some (BlockBody.streamInfo bs)
  | ParseBranch.padding, _ => none
  | ParseBranch.application, bs => some (BlockBody.application bs)
  | ParseBranch.seekTable, bs => some (BlockBody.seekTable bs)
  | ParseBranch.vorbisComment, bs => some (BlockBody.vorbisComment bs)
  | ParseBranch.cueSheet, bs => some (BlockBody.cueSheet bs)
  | ParseBranch.picture, bs => some (BlockBody.picture bs)
  | ParseBranch.reserved, bs => some (BlockBody.rawBytes bs)
  | ParseBranch.unsupported, _ => none

/-- Block.Parse: builds the io.LimitReader bounded to Header.Length bytes
over the underlying reader, dispatches on Header.BlockType, and runs the
selected delegate over the bounded view (the reserved branch reads the
whole view with ReadAll; the default branch fails with the unsupported
type error). A delegate error propagates unchanged. On success the block
carries the advanced reader, the unchanged header and the stored body. -/
def Block.Parse (d : DelegateBehavior) (block : Block) : Except MetaError Block :=
  let lr : LimitReader := { n := block.Header.Length, r := block.r }
  match parseDispatch block.Header.BlockType with
  | ParseBranch.unsupported =>
    Except.error (MetaError.unsupportedType block.Header.BlockType)
  | ParseBranch.reserved =>
    let res := readAll lr
    Except.ok { r := res.2.r, Header := block.Header,
                Body := some (BlockBody.rawBytes res.1) }
  | br =>
    let res := runReads lr d.reqs
    if d.fails res.1 then Except.error MetaError.delegateError
    else Except.ok { r := res.2.r, Header := block.Header, Body := mkBody br res.1 }

/-- Model of io.CopyN to ioutil.Discard: reads and discards exactly n
bytes from the reader, failing with an io error (EOF) when the stream ends
first. -/
def copyNDiscard (s : ByteReader) (n : Nat) : Except MetaError ByteReader :=
  if n ≤ (s.data.drop s.pos).length then Except.ok { s with pos := s.pos + n }
  else Except.error MetaError.ioError

/-- Block.Skip: if the underlying reader supports random positioning, a
relative forward seek of Header.Length bytes; otherwise a sequential read
and discard of Header.Length bytes. Errors of the underlying operation
propagate unchanged. -/
def Block.Skip (block : Block) : Except MetaError Block :=
  if block.r.seekable then
    match block.r.seekCur block.Header.Length with
    | Except.error e => Except.error e
    | Except.ok s => Except.ok { block with r := s }
  else
    match copyNDiscard block.r block.Header.Length with
    | Except.error e => Except.error e
    | Except.ok s => Except.ok { block with r := s }

/-- NewBlock: reads and parses a metadata block header from the reader and
returns the block handle positioned at the first body byte, together with
the optional reserved-type diagnostic of the header decode. -/
def NewBlock (r : ByteReader) : Except MetaError (Block × Option Nat) :=
  match ParseBlockHeader r with
  | Except.error e => Except.error e
  | Except.ok (h, dg, r2) => Except.ok ({ r := r2, Header := h, Body := none }, dg)

/-- Claim C8: every BlockType value is a distinct power of two, TypeAll is
the bitwise or of every type except padding, and TypeAllStrict is the
bitwise or of every type except reserved. -/
theorem blockType_constants :
    TypeStreamInfo = 2 ^ 0 ∧ TypePadding = 2 ^ 1 ∧ TypeApplication = 2 ^ 2 ∧
    TypeSeekTable = 2 ^ 3 ∧ TypeVorbisComment = 2 ^ 4 ∧ TypeCueSheet = 2 ^ 5 ∧
    TypePicture = 2 ^ 6 ∧ TypeReserved = 2 ^ 7 ∧
    List.Pairwise (fun a b => a ≠ b)
      [TypeStreamInfo, TypePadding, TypeApplication, TypeSeekTable,
       TypeVorbisComment, TypeCueSheet, TypePicture, TypeReserved] ∧
    TypeAll = TypeStreamInfo ||| TypeApplication ||| TypeSeekTable |||
      TypeVorbisComment ||| TypeCueSheet ||| TypePicture ||| TypeReserved ∧
    TypeAll &&& TypePadding = 0 ∧
    TypeAllStrict = TypeStreamInfo ||| TypePadding ||| TypeApplication |||
      TypeSeekTable ||| TypeVorbisComment ||| TypeCueSheet ||| TypePicture ∧
    TypeAllStrict &&& TypeReserved = 0 := by
  decide

theorem bytesValue_four (b0 b1 b2 b3 : Nat) :
    bytesValue [b0, b1, b2, b3] =
      b0 % 256 * 2 ^ 24 + b1 % 256 * 2 ^ 16 + b2 % 256 * 2 ^ 8 + b3 % 256 := by
  simp [bytesValue]
  ring

theorem splitFields_eval (v : Nat) :
    splitFields [1, 7, 24] v = [v / 2 ^ 31 % 2, v / 2 ^ 24 % 128, v % 2 ^ 24] := by
  simp only [splitFields, List.sum_cons, List.sum_nil]
  norm_num
  omega

theorem readFields_header (s : ByteReader) (b0 b1 b2 b3 : Nat) (rest : List Nat)
    (hs : s.data.drop s.pos = b0 :: b1 :: b2 :: b3 :: rest) :
    readFields [1, 7, 24] s =
      some (splitFields [1, 7, 24] (bytesValue [b0, b1, b2, b3]),
            { s with pos := s.pos + 4 }) := by
  simp [readFields, hs, List.take_succ_cons]

theorem parseFields_packed (f c b1 b2 b3 : Nat) (hf : f ≤ 1) (hc : c ≤ 127) :
    splitFields [1, 7, 24] (bytesValue [f * 128 + c, b1, b2, b3]) =
      [f, c, b1 % 256 * 65536 + b2 % 256 * 256 + b3 % 256] := by
  rw [bytesValue_four, splitFields_eval]
  norm_num
  omega

/-- Claim C1: for every 4-byte input bit-packing (MSB-first) a 1-bit
is_last flag f, a 7-bit type code c with c ≤ 6 and a 24-bit length L,
ParseBlockHeader succeeds with IsLast true iff the flag bit is nonzero,
BlockType the table mapping of c, Length exactly L, consuming exactly 4
bytes and no body bytes. -/
theorem ParseBlockHeader_roundtrip (f c L : Nat) (body : List Nat) (s : ByteReader)
    (hf : f ≤ 1) (hc : c ≤ 6) (hL : L ≤ 16777215)
    (hs : s.data.drop s.pos =
      (f * 128 + c) :: (L / 65536) :: (L / 256 % 256) :: (L % 256) :: body) :
    ParseBlockHeader s =
      Except.ok ({ IsLast := decide (f ≠ 0), BlockType := blockTypeOfCode c, Length := L },
                 none, { s with pos := s.pos + 4 }) := by
  unfold ParseBlockHeader
  rw [readFields_header s _ _ _ _ body hs,
      parseFields_packed f c _ _ _ hf (by omega)]
  have hL2 : L / 65536 % 256 * 65536 + L / 256 % 256 % 256 * 256 + L % 256 % 256 = L := by
    omega
  rw [hL2]
  interval_cases c <;> interval_cases f <;> simp [blockTypeOfCode]

theorem ParseBlockHeader_roundtrip_witness :
    ParseBlockHeader { data := [0 * 128 + 0, 34 / 65536, 34 / 256 % 256, 34 % 256, 9, 9],
                       pos := 0, seekable := false } =
      Except.ok ({ IsLast := decide ((0 : Nat) ≠ 0), BlockType := blockTypeOfCode 0,
                   Length := 34 },
                 none,
                 { data := [0 * 128 + 0, 34 / 65536, 34 / 256 % 256, 34 % 256, 9, 9],
                   pos := 0 + 4, seekable := false }) :=
  ParseBlockHeader_roundtrip 0 0 34 [9, 9]
    { data := [0 * 128 + 0, 34 / 65536, 34 / 256 % 256, 34 % 256, 9, 9],
      pos := 0, seekable := false }
    (by decide) (by decide) (by decide) (by decide)

/-- Claim C4: for every 4-byte header input whose 7-bit type-code field is
127, ParseBlockHeader fails with the format error and produces no header,
regardless of the is_last bit and the 24-bit length bytes. -/
theorem ParseBlockHeader_invalid127 (f b1 b2 b3 : Nat) (body : List Nat) (s : ByteReader)
    (hf : f ≤ 1)
    (hs : s.data.drop s.pos = (f * 128 + 127) :: b1 :: b2 :: b3 :: body) :
    ParseBlockHeader s = Except.error MetaError.invalidBlockType := by
  unfold ParseBlockHeader
  rw [readFields_header s _ _ _ _ body hs,
      parseFields_packed f 127 _ _ _ hf (by omega)]
  simp

theorem ParseBlockHeader_invalid127_witness :
    ParseBlockHeader { data := [1 * 128 + 127, 5, 6, 7], pos := 0, seekable := true } =
      Except.error MetaError.invalidBlockType :=
  ParseBlockHeader_invalid127 1 5 6 7 []
    { data := [1 * 128 + 127, 5, 6, 7], pos := 0, seekable := true }
    (by decide) (by decide)

/-- Claim C5: for every 4-byte header input whose 7-bit type-code field c
satisfies 7 ≤ c ≤ 126, ParseBlockHeader succeeds, the returned header has
BlockType TypeReserved, and the non-fatal diagnostic carrying the numeric
code c is emitted; processing is not aborted. -/
theorem ParseBlockHeader_reserved (f c L : Nat) (body : List Nat) (s : ByteReader)
    (hf : f ≤ 1) (hc7 : 7 ≤ c) (hc : c ≤ 126) (hL : L ≤ 16777215)
    (hs : s.data.drop s.pos =
      (f * 128 + c) :: (L / 65536) :: (L / 256 % 256) :: (L % 256) :: body) :
    ParseBlockHeader s =
      Except.ok ({ IsLast := decide (f ≠ 0), BlockType := TypeReserved, Length := L },
                 some c, { s with pos := s.pos + 4 }) := by
  unfold ParseBlockHeader
  rw [readFields_header s _ _ _ _ body hs,
      parseFields_packed f c _ _ _ hf (by omega)]
  have hL2 : L / 65536 % 256 * 65536 + L / 256 % 256 % 256 * 256 + L % 256 % 256 = L := by
    omega
  rw [hL2]
  simp only [List.getD_cons_zero, List.getD_cons_succ]
  rw [if_neg (by omega), if_neg (by omega), if_neg (by omega), if_neg (by omega),
      if_neg (by omega), if_neg (by omega), if_neg (by omega), if_pos ⟨hc7, hc⟩]

theorem ParseBlockHeader_reserved_witness :
    ParseBlockHeader { data := [1 * 128 + 50, 0, 1, 12, 3], pos := 0, seekable := false } =
      Except.ok ({ IsLast := decide ((1 : Nat) ≠ 0), BlockType := TypeReserved,
                   Length := 268 },
                 some 50,
                 { data := [1 * 128 + 50, 0, 1, 12, 3], pos := 0 + 4, seekable := false }) :=
  ParseBlockHeader_reserved 1 50 268 [3]
    { data := [1 * 128 + 50, 0, 1, 12, 3], pos := 0, seekable := false }
    (by decide) (by decide) (by decide) (by decide) (by decide)

theorem LimitReader_read_eval (n : Nat) (s : ByteReader) (p : Nat) :
    LimitReader.read { n := n, r := s } p =
      ((s.data.drop s.pos).take (min p n),
       { n := n - ((s.data.drop s.pos).take (min p n)).length,
         r := { s with pos := s.pos + ((s.data.drop s.pos).take (min p n)).length } }) := by
  simp [LimitReader.read, ByteReader.read]

theorem runReads_cons (lr : LimitReader) (p : Nat) (ps : List Nat) :
    runReads lr (p :: ps) =
      ((lr.read p).1 ++ (runReads (lr.read p).2 ps).1, (runReads (lr.read p).2 ps).2) := rfl

theorem runReads_spec (reqs : List Nat) (n : Nat) (s : ByteReader) :
    (runReads { n := n, r := s } reqs).1.length ≤ n ∧
    (runReads { n := n, r := s } reqs).2.r.data = s.data ∧
    (runReads { n := n, r := s } reqs).2.r.pos =
      s.pos + (runReads { n := n, r := s } reqs).1.length ∧
    ∃ t, (runReads { n := n, r := s } reqs).1 ++ t = (s.data.drop s.pos).take n := by
  induction reqs generalizing n s with
  | nil =>
    exact ⟨by simp [runReads], by simp [runReads], by simp [runReads],
           (s.data.drop s.pos).take n, by simp [runReads]⟩
  | cons p ps ih =>
    rw [runReads_cons, LimitReader_read_eval]
    have hk : ((s.data.drop s.pos).take (min p n)).length =
        min (min p n) (s.data.drop s.pos).length := List.length_take _ _
    obtain ⟨ih1, ih2, ih3, t, ih4⟩ :=
      ih (n - ((s.data.drop s.pos).take (min p n)).length)
         { s with pos := s.pos + ((s.data.drop s.pos).take (min p n)).length }
    refine ⟨?_, ?_, ?_, t, ?_⟩
    · simp only [List.length_append]
      omega
    · exact ih2
    · simp only [List.length_append]
      rw [ih3]
      dsimp only
      omega
    · rw [List.append_assoc, ih4]
      have hrw : (s.data.drop (s.pos + ((s.data.drop s.pos).take (min p n)).length)) =
          (s.data.drop s.pos).drop ((s.data.drop s.pos).take (min p n)).length := by
        rw [List.drop_drop]
      rw [hrw]
      have htk : (s.data.drop s.pos).take ((s.data.drop s.pos).take (min p n)).length =
          (s.data.drop s.pos).take (min p n) := by
        rw [List.take_eq_take]
        omega
      calc (s.data.drop s.pos).take (min p n) ++
            ((s.data.drop s.pos).drop ((s.data.drop s.pos).take (min p n)).length).take
              (n - ((s.data.drop s.pos).take (min p n)).length)
          = (s.data.drop s.pos).take ((s.data.drop s.pos).take (min p n)).length ++
            ((s.data.drop s.pos).drop ((s.data.drop s.pos).take (min p n)).length).take
              (n - ((s.data.drop s.pos).take (min p n)).length) := by rw [htk]
        _ = (s.data.drop s.pos).take (((s.data.drop s.pos).take (min p n)).length +
              (n - ((s.data.drop s.pos).take (min p n)).length)) := by rw [List.take_add]
        _ = (s.data.drop s.pos).take n := by
              congr 1
              omega

theorem readFields_getD2_le (s : ByteReader) (fields : List Nat) (s2 : ByteReader)
    (hrf : readFields [1, 7, 24] s = some (fields, s2)) :
    fields.getD 2 0 ≤ 16777215 := by
  unfold readFields at hrf
  dsimp only at hrf
  split at hrf
  · exact absurd hrf (by simp)
  · rw [Option.some.injEq, Prod.mk.injEq] at hrf
    obtain ⟨hf, -⟩ := hrf
    rw [← hf, splitFields_eval]
    simp only [List.getD_cons_zero, List.getD_cons_succ]
    omega

theorem ParseBlockHeader_ok (s : ByteReader) (h : BlockHeader) (dg : Option Nat)
    (s2 : ByteReader)
    (hok : ParseBlockHeader s = Except.ok (h, dg, s2)) :
    h.Length ≤ 16777215 ∧
    (h.BlockType = TypeStreamInfo ∨ h.BlockType = TypePadding ∨
     h.BlockType = TypeApplication ∨ h.BlockType = TypeSeekTable ∨
     h.BlockType = TypeVorbisComment ∨ h.BlockType = TypeCueSheet ∨
     h.BlockType = TypePicture ∨ h.BlockType = TypeReserved) := by
  unfold ParseBlockHeader at hok
  cases hrf : readFields [1, 7, 24] s with
  | none => rw [hrf] at hok; exact absurd hok (by simp)
  | some p =>
    obtain ⟨fields, s3⟩ := p
    have hlen := readFields_getD2_le s fields s3 hrf
    rw [hrf] at hok
    dsimp only at hok
    split_ifs at hok <;>
      simp only [Except.ok.injEq, Prod.mk.injEq, reduceCtorEq] at hok
    all_goals
      obtain ⟨hh, -, -⟩ := hok
      subst hh
      exact ⟨hlen, by simp⟩

theorem Parse_ok_reader (d : DelegateBehavior) (block : Block) (b : Block)
    (hok : Block.Parse d block = Except.ok b) :
    b.Header = block.Header ∧ b.r.data = block.r.data ∧
    ∃ k, k ≤ block.Header.Length ∧ b.r.pos = block.r.pos + k := by
  unfold Block.Parse at hok
  dsimp only at hok
  obtain ⟨h1, h2, h3, -⟩ := runReads_spec d.reqs block.Header.Length block.r
  split at hok
  · exact absurd hok (by simp)
  · rw [Except.ok.injEq] at hok
    subst hok
    refine ⟨rfl, by simp [readAll, LimitReader.read, ByteReader.read],
            ((block.r.data.drop block.r.pos).take
              (min block.Header.Length block.Header.Length)).length, ?_,
            by simp [readAll, LimitReader.read, ByteReader.read]⟩
    simp only [List.length_take]
    omega
  · split at hok
    · exact absurd hok (by simp)
    · rw [Except.ok.injEq] at hok
      subst hok
      exact ⟨rfl, h2,
             (runReads { n := block.Header.Length, r := block.r } d.reqs).1.length, h1, h3⟩

theorem Skip_eval_seekable (block : Block) (hs : block.r.seekable = true) :
    Block.Skip block =
      Except.ok { block with
                  r := { block.r with pos := block.r.pos + block.Header.Length } } := by
  unfold Block.Skip
  rw [if_pos hs]
  rfl

theorem Skip_eval_discard_ok (block : Block) (hs : block.r.seekable = false)
    (h : block.Header.Length ≤ (block.r.data.drop block.r.pos).length) :
    Block.Skip block =
      Except.ok { block with
                  r := { block.r with pos := block.r.pos + block.Header.Length } } := by
  unfold Block.Skip
  rw [if_neg (by simp [hs])]
  unfold copyNDiscard
  rw [if_pos h]

theorem Skip_eval_discard_err (block : Block) (hs : block.r.seekable = false)
    (h : ¬ block.Header.Length ≤ (block.r.data.drop block.r.pos).length) :
    Block.Skip block = Except.error MetaError.ioError := by
  unfold Block.Skip
  rw [if_neg (by simp [hs])]
  unfold copyNDiscard
  rw [if_neg h]

theorem Skip_ok_header (block b : Block) (hok : Block.Skip block = Except.ok b) :
    b.Header = block.Header := by
  by_cases hs : block.r.seekable = true
  · rw [Skip_eval_seekable block hs, Except.ok.injEq] at hok
    subst hok
    rfl
  · have hs2 : block.r.seekable = false := by simpa using hs
    by_cases h : block.Header.Length ≤ (block.r.data.drop block.r.pos).length
    · rw [Skip_eval_discard_ok block hs2 h, Except.ok.injEq] at hok
      subst hok
      rfl
    · rw [Skip_eval_discard_err block hs2 h] at hok
      exact absurd hok (by simp)

/-- Claim C2: for every block and any behaviour of the delegated body
decoder, the bytes the delegate can observe through the bounded view of
Parse are a prefix of the first Header.Length bytes past the cursor (at
most Header.Length bytes, never bytes of the following block; a request
past the bound is answered with a short read), and a successful Parse
advances the cursor of the underlying stream by at most Header.Length. -/
theorem Parse_reads_bounded (block : Block) (d : DelegateBehavior) :
    (runReads { n := block.Header.Length, r := block.r } d.reqs).1.length ≤
      block.Header.Length ∧
    (∃ t, (runReads { n := block.Header.Length, r := block.r } d.reqs).1 ++ t =
      (block.r.data.drop block.r.pos).take block.Header.Length) ∧
    ∀ b, Block.Parse d block = Except.ok b →
      b.r.data = block.r.data ∧
      ∃ k, k ≤ block.Header.Length ∧ b.r.pos = block.r.pos + k := by
  obtain ⟨h1, -, -, h4⟩ := runReads_spec d.reqs block.Header.Length block.r
  exact ⟨h1, h4, fun b hb =>
    ⟨(Parse_ok_reader d block b hb).2.1, (Parse_ok_reader d block b hb).2.2⟩⟩

theorem Parse_reads_bounded_witness :
    ({ data := [10, 20, 30], pos := 2, seekable := false } : ByteReader).data =
      ({ data := [10, 20, 30], pos := 0, seekable := false } : ByteReader).data ∧
    ∃ k, k ≤ 2 ∧
      ({ data := [10, 20, 30], pos := 2, seekable := false } : ByteReader).pos =
        ({ data := [10, 20, 30], pos := 0, seekable := false } : ByteReader).pos + k :=
  (Parse_reads_bounded
      { r := { data := [10, 20, 30], pos := 0, seekable := false },
        Header := { IsLast := false, BlockType := TypeStreamInfo, Length := 2 },
        Body := none }
      { reqs := [5], fails := fun _ => false }).2.2
    { r := { data := [10, 20, 30], pos := 2, seekable := false },
      Header := { IsLast := false, BlockType := TypeStreamInfo, Length := 2 },
      Body := some (BlockBody.streamInfo [10, 20]) }
    rfl

/-- Claim C3: for a block of declared length L whose backing stream holds
at least L body bytes after the post-header position, Skip succeeds on
both a seekable and a purely sequential backing store and leaves the
cursor at the same absolute offset, header start + 4 + L (the position
start + 4 is where the reader stands after the 4 header bytes). -/
theorem Skip_seek_discard_equiv (data : List Nat) (start : Nat) (hdr : BlockHeader)
    (b1 b2 : Option BlockBody)
    (h : start + 4 + hdr.Length ≤ data.length) :
    ∃ s1 s2,
      Block.Skip { r := { data := data, pos := start + 4, seekable := true },
                   Header := hdr, Body := b1 } = Except.ok s1 ∧
      Block.Skip { r := { data := data, pos := start + 4, seekable := false },
                   Header := hdr, Body := b2 } = Except.ok s2 ∧
      s1.r.pos = start + 4 + hdr.Length ∧ s2.r.pos = start + 4 + hdr.Length ∧
      s1.r.data = data ∧ s2.r.data = data := by
  have hcond : hdr.Length ≤ ((data.drop (start + 4)).length) := by
    rw [List.length_drop]
    omega
  refine ⟨_, _, Skip_eval_seekable _ rfl, Skip_eval_discard_ok _ rfl hcond,
          rfl, rfl, rfl, rfl⟩

theorem Skip_seek_discard_equiv_witness :
    0 + 4 + 2 ≤ 6 ∧
    ∃ s1 s2,
      Block.Skip { r := { data := [1, 2, 3, 4, 5, 6], pos := 0 + 4, seekable := true },
                   Header := { IsLast := false, BlockType := TypePadding, Length := 2 },
                   Body := none } = Except.ok s1 ∧
      Block.Skip { r := { data := [1, 2, 3, 4, 5, 6], pos := 0 + 4, seekable := false },
                   Header := { IsLast := false, BlockType := TypePadding, Length := 2 },
                   Body := none } = Except.ok s2 ∧
      s1.r.pos = 0 + 4 + 2 ∧ s2.r.pos = 0 + 4 + 2 ∧
      s1.r.data = [1, 2, 3, 4, 5, 6] ∧ s2.r.data = [1, 2, 3, 4, 5, 6] :=
  ⟨by decide,
   Skip_seek_discard_equiv [1, 2, 3, 4, 5, 6] 0
     { IsLast := false, BlockType := TypePadding, Length := 2 } none none (by decide)⟩

/-- Claim C6 counterexample: a block of declared length 1 over a seekable
backing store holding 0 body bytes. The claim predicts that Skip fails
with an io error on the seekable path too, but Skip succeeds there: the
relative forward seek completes even past the end of the stream. -/
theorem Skip_seekable_short_counterexample :
    Block.Skip { r := { data := [], pos := 0, seekable := true },
                 Header := { IsLast := true, BlockType := TypeStreamInfo, Length := 1 },
                 Body := none } =
      Except.ok { r := { data := [], pos := 1, seekable := true },
                  Header := { IsLast := true, BlockType := TypeStreamInfo, Length := 1 },
                  Body := none } ∧
    ([] : List Nat).length < 1 := by
  refine ⟨?_, by decide⟩
  rfl

/-- Claim C6 amended: for a block of declared length L over a stream
holding fewer than L bytes after the header, Skip on the sequential
read-and-discard path fails with an io error; on the seekable path the
relative forward seek completes past the end of the stream, so Skip
succeeds there and leaves the cursor at the post-header position plus L. -/
theorem Skip_short_stream (data : List Nat) (pos : Nat) (hdr : BlockHeader)
    (b1 b2 : Option BlockBody)
    (h : (data.drop pos).length < hdr.Length) :
    Block.Skip { r := { data := data, pos := pos, seekable := false },
                 Header := hdr, Body := b1 } = Except.error MetaError.ioError ∧
    ∃ s, Block.Skip { r := { data := data, pos := pos, seekable := true },
                      Header := hdr, Body := b2 } = Except.ok s ∧
      s.r.pos = pos + hdr.Length := by
  exact ⟨Skip_eval_discard_err _ rfl (by simpa using Nat.not_le.mpr h),
         _, Skip_eval_seekable _ rfl, rfl⟩

theorem Skip_short_stream_witness :
    ([] : List Nat).length < 3 ∧
    Block.Skip { r := { data := [], pos := 0, seekable := false },
                 Header := { IsLast := false, BlockType := TypePicture, Length := 3 },
                 Body := none } = Except.error MetaError.ioError :=
  ⟨by decide,
   (Skip_short_stream [] 0 { IsLast := false, BlockType := TypePicture, Length := 3 }
      none none (by decide)).1⟩

/-- Claim C7: each of the eight declared BlockType values selects exactly
one distinct branch of the dispatch of Parse (the selection is injective
on the declared values and never the default branch), and for every header
produced by ParseBlockHeader the unsupported-type default branch is
unreachable. -/
theorem parseDispatch_exhaustive :
    (∀ t, t ∈ [TypeStreamInfo, TypePadding, TypeApplication, TypeSeekTable,
               TypeVorbisComment, TypeCueSheet, TypePicture, TypeReserved] →
      parseDispatch t ≠ ParseBranch.unsupported) ∧
    (∀ t1 ∈ [TypeStreamInfo, TypePadding, TypeApplication, TypeSeekTable,
             TypeVorbisComment, TypeCueSheet, TypePicture, TypeReserved],
     ∀ t2 ∈ [TypeStreamInfo, TypePadding, TypeApplication, TypeSeekTable,
             TypeVorbisComment, TypeCueSheet, TypePicture, TypeReserved],
      parseDispatch t1 = parseDispatch t2 → t1 = t2) ∧
    (∀ s h dg s2, ParseBlockHeader s = Except.ok (h, dg, s2) →
      parseDispatch h.BlockType ≠ ParseBranch.unsupported) := by
  refine ⟨by decide, by decide, ?_⟩
  intro s h dg s2 hok
  rcases (ParseBlockHeader_ok s h dg s2 hok).2 with h1 | h1 | h1 | h1 | h1 | h1 | h1 | h1 <;>
    rw [h1] <;> decide

theorem parseDispatch_exhaustive_witness :
    parseDispatch TypeStreamInfo ≠ ParseBranch.unsupported ∧
    parseDispatch
        ({ IsLast := false, BlockType := TypeStreamInfo, Length := 34 } : BlockHeader).BlockType ≠
      ParseBranch.unsupported :=
  ⟨parseDispatch_exhaustive.1 TypeStreamInfo (by decide),
   parseDispatch_exhaustive.2.2 { data := [0, 0, 0, 34], pos := 0, seekable := false }
     { IsLast := false, BlockType := TypeStreamInfo, Length := 34 } none
     { data := [0, 0, 0, 34], pos := 4, seekable := false } rfl⟩

/-- Claim C9: every header produced by ParseBlockHeader satisfies
0 ≤ length ≤ 16777215 (the lower bound is inherent to Nat), and no
operation of the system (Parse, Skip) ever changes the header of a block
after its creation: a successful Parse or Skip returns the block with the
identical header. -/
theorem blockHeader_invariants :
    (∀ s h dg s2, ParseBlockHeader s = Except.ok (h, dg, s2) → h.Length ≤ 16777215) ∧
    (∀ d block b, Block.Parse d block = Except.ok b → b.Header = block.Header) ∧
    (∀ block b, Block.Skip block = Except.ok b → b.Header = block.Header) :=
  ⟨fun s h dg s2 hok => (ParseBlockHeader_ok s h dg s2 hok).1,
   fun d block b hok => (Parse_ok_reader d block b hok).1,
   fun block b hok => Skip_ok_header block b hok⟩

theorem blockHeader_invariants_witness :
    ({ IsLast := false, BlockType := TypeStreamInfo, Length := 34 } : BlockHeader).Length ≤
      16777215 :=
  blockHeader_invariants.1 { data := [0, 0, 0, 34], pos := 0, seekable := false }
    { IsLast := false, BlockType := TypeStreamInfo, Length := 34 } none
    { data := [0, 0, 0, 34], pos := 4, seekable := false } rfl

/-- Claim C10: the name lookup is total: each of the seven concrete types
renders as its own name, while TypeReserved (which has no entry in the
name table) and every other uint8 value render through the fallback as
the label naming the numeric value (128 for TypeReserved). -/
theorem blockTypeString_total :
    BlockType.String TypeStreamInfo = "stream info" ∧
    BlockType.String TypePadding = "padding" ∧
    BlockType.String TypeApplication = "application" ∧
    BlockType.String TypeSeekTable = "seek table" ∧
    BlockType.String TypeVorbisComment = "vorbis comment" ∧
    BlockType.String TypeCueSheet = "cue sheet" ∧
    BlockType.String TypePicture = "picture" ∧
    BlockType.String TypeReserved = "unknown block type 128" ∧
    ∀ t : BlockType, t < 256 →
      t ∉ [TypeStreamInfo, TypePadding, TypeApplication, TypeSeekTable,
           TypeVorbisComment, TypeCueSheet, TypePicture] →
      BlockType.String t = "unknown block type " ++ toString t := by
  refine ⟨rfl, rfl, rfl, rfl, rfl, rfl, rfl, rfl, ?_⟩
  intro t ht hnot
  simp only [List.mem_cons, List.not_mem_nil, or_false, not_or] at hnot
  obtain ⟨n1, n2, n3, n4, n5, n6, n7⟩ := hnot
  unfold BlockType.String blockTypeName
  rw [if_neg n1, if_neg n2, if_neg n3, if_neg n4, if_neg n5, if_neg n6, if_neg n7]

theorem blockTypeString_total_witness :
    (200 : BlockType) < 256 ∧
    BlockType.String 200 = "unknown block type " ++ toString (200 : Nat) :=
  ⟨by decide, blockTypeString_total.2.2.2.2.2.2.2.2 200 (by decide) (by decide)⟩
